import Mathlib

/-!
Shallow embedding of `mock_generator.py` (a mock Factorio telemetry
generator).  The program builds JSON records (Python dicts with string
keys, in insertion order), draws randomness from the `random` module,
and writes newline-terminated JSON lines to a named pipe.

Modelling conventions:
* a Python dict is an association list in insertion order (`Dict`);
* the PRNG is an abstract stream of rationals `f : ℕ → ℚ` together with
  a cursor `k`; each call of `random.random()` reads `f k` and advances
  the cursor.  `random.uniform`, `random.randint` and `random.choice`
  each consume one draw (for `randint`/`choice` only the facts "the
  result is in range / in the list" and "one draw is consumed" matter
  to the claims, so the exact CPython bit-twiddling is abstracted);
* Python floats are modelled as rationals; `round(x, n)` is modelled
  with Mathlib's `round` (the two differ only on exact half-way ties);
* the infinite emission loop is modelled with fuel: `runRecords t g n`
  is the list of records written after `n` loop iterations.
-/

/-- JSON-like values appearing in the generator's records. -/
inductive Value where
  | VStr (s : String)
  | VInt (n : ℤ)
  | VRat (q : ℚ)
  | VObj (fields : List (String × Value))

/-- A Python dict with string keys, in insertion order. -/
abbrev Dict := List (String × Value)

/-- The keys of a dict, in insertion order. -/
def dictKeys (d : Dict) : List String := d.map Prod.fst

/-- The abstract pseudo-random source: an infinite stream of draws in
`[0,1)` and a cursor pointing at the next unconsumed draw. -/
structure RNG where
  f : ℕ → ℚ
  k : ℕ

/-- One call of `random.random()`: read the current draw, advance. -/
def RNG.next (g : RNG) : ℚ × RNG := (g.f g.k, ⟨g.f, g.k + 1⟩)

/-- A random source is valid when every draw lies in `[0,1)`, as
`random.random()` guarantees. -/
def validRNG (g : RNG) : Prop := ∀ n, 0 ≤ g.f n ∧ g.f n < 1

/-- `random.uniform(a, b) = a + (b-a) * random.random()`. -/
def pyUniform (a b : ℚ) (g : RNG) : ℚ × RNG :=
  let (u, g1) := g.next
  (a + (b - a) * u, g1)

/-- `random.randint(a, b)`: one draw consumed, result in `[a, b]`. -/
def pyRandint (a b : ℤ) (g : RNG) : ℤ × RNG :=
  let (u, g1) := g.next
  (a + min (b - a) (Int.floor (u * ((b - a + 1 : ℤ) : ℚ))), g1)

/-- `random.choice(l)`: one draw consumed, an element of `l` returned. -/
def pyChoice (l : List String) (g : RNG) : String × RNG :=
  let (u, g1) := g.next
  (l.getD (min (l.length - 1) (Int.floor (u * (l.length : ℚ))).toNat) "", g1)

/-- Python's substring test `needle in hay`. -/
def strContains (hay needle : String) : Bool :=
  (List.range (hay.length + 1)).any fun i =>
    needle.toList.isPrefixOf (hay.toList.drop i)

/-- `round(x, n)` on the rational model: scale, round, unscale. -/
def roundTo (n : ℕ) (x : ℚ) : ℚ :=
  ((round (x * (10 : ℚ) ^ n) : ℤ) : ℚ) / (10 : ℚ) ^ n

/-- `LEVEL_NAME = "nauvis"`. -/
def LEVEL_NAME : String := "nauvis"

/-- `EVENT_TYPES` from the source. -/
def EVENT_TYPES : List String :=
  ["on_built_entity", "on_player_mined_entity", "on_research_started",
   "on_research_finished"]

/-- `ENTITIES` from the source. -/
def ENTITIES : List String :=
  ["assembling-machine-1", "inserter", "transport-belt", "iron-chest",
   "stone-furnace"]

/-- `TECHS` from the source. -/
def TECHS : List String :=
  ["automation", "logistics", "steel-processing", "electronics"]

/-- `RECIPES` from the source. -/
def RECIPES : List String :=
  ["iron-plate", "copper-cable", "electronic-circuit", "inserter"]

/-- `ITEMS` from the source. -/
def ITEMS : List String :=
  ["iron-plate", "copper-plate", "electronic-circuit", "coal", "stone"]

/-- `FLUIDS` from the source. -/
def FLUIDS : List String := ["water", "crude-oil", "petroleum-gas"]

/-- `POSSIBLE_PATHS`, with `os.path.expanduser` made explicit in the
home directory parameter. -/
def POSSIBLE_PATHS (home : String) : List String :=
  [home ++ "/Library/Application Support/factorio/script-output/events.pipe",
   "/tmp/events.pipe"]

/-- The module-level `PIPE_PATH` computation: start from the first
candidate, then take the first candidate whose parent directory exists
(`parentExists p` models `os.path.exists(os.path.dirname(p))`; the
`try/except: continue` is invisible here because `os.path.exists`
returns rather than raises). -/
def selectPIPE_PATH (paths : List String) (parentExists : String → Bool) : String :=
  match paths.find? parentExists with
  | some p => p
  | none => paths.headD ""

/-- `SESSION_ID = f"{LEVEL_NAME}_{INIT_TICK}_{random.randint(100000, 999999)}"`,
with `INIT_TICK = int(time.time())` passed in as `initTick`. -/
def mkSessionId (initTick : ℕ) (g : RNG) : String × RNG :=
  let (r, g1) := pyRandint 100000 999999 g
  (LEVEL_NAME ++ "_" ++ Nat.repr initTick ++ "_" ++ toString r, g1)

/-- `generate_session_init()` from the source. -/
def generate_session_init (sid : String) : Dict :=
  [("type", .VStr "session_init"), ("session_id", .VStr sid),
   ("tick", .VInt 0), ("level_name", .VStr LEVEL_NAME)]

/-- `format_number(num) = round(num, 5)`. -/
def format_number (num : ℚ) : ℚ := roundTo 5 num

/-- The common part of the `payload` dict built by `generate_event`. -/
def eventPayload (sid : String) (tick : ℕ) (event_name : String) : Dict :=
  [("type", .VStr "event"), ("session_id", .VStr sid),
   ("tick", .VInt tick), ("event_name", .VStr event_name),
   ("player_index", .VInt 1)]

/-- `generate_event(tick)` from the source: a common payload followed by
the variant fields chosen by the `"research" in event_name` /
`event_name == "on_player_crafted_item"` / else branches. -/
def generate_event (sid : String) (tick : ℕ) (g : RNG) : Dict × RNG :=
  let (event_name, g1) := pyChoice (EVENT_TYPES ++ ["on_player_crafted_item"]) g
  let payload : Dict := eventPayload sid tick event_name
  let (extra, g2) :=
    if strContains event_name "research" then
      let (t, g2) := pyChoice TECHS g1
      let (lv, g3) := pyRandint 1 5 g2
      if event_name = "on_research_finished" then
        let (d, g4) := pyUniform 60 600 g3
        ([("tech_name", Value.VStr t), ("level", Value.VInt lv),
          ("duration", Value.VRat (roundTo 2 d))], g4)
      else
        ([("tech_name", Value.VStr t), ("level", Value.VInt lv)], g3)
    else if event_name = "on_player_crafted_item" then
      let (item, g2) := pyChoice RECIPES g1
      let (c, g3) := pyRandint 1 5 g2
      ([("item_name", Value.VStr item), ("count", Value.VInt c),
        ("recipe", Value.VStr item)], g3)
    else
      let (e, g2) := pyChoice ENTITIES g1
      let (x, g3) := pyUniform 0 100 g2
      let (y, g4) := pyUniform 0 100 g3
      ([("entity", Value.VStr e),
        ("position", Value.VObj [("x", Value.VRat (roundTo 1 x)),
                                 ("y", Value.VRat (roundTo 1 y))])], g4)
  (payload ++ extra, g2)

/-- The mutable state of `generate_status`'s loops: the two dicts under
construction and the random source. -/
structure GS where
  pp : Dict
  mc : Dict
  g : RNG

/-- The body of `for item in ITEMS:` in `generate_status`. -/
def itemStep (s : GS) (item : String) : GS :=
  let (u1, g1) := s.g.next
  let (pp1, g2) :=
    if (3 / 10 : ℚ) < u1 then
      let (q, g2) := pyUniform 0 200 g1
      (s.pp ++ [(item, Value.VRat (format_number q))], g2)
    else (s.pp, g1)
  let (u2, g3) := g2.next
  let (mc1, g4) :=
    if (3 / 10 : ℚ) < u2 then
      let (q, g4) := pyUniform 0 200 g3
      (s.mc ++ [(item, Value.VRat (format_number q))], g4)
    else (s.mc, g3)
  ⟨pp1, mc1, g4⟩

/-- The body of `for fluid in FLUIDS:` in `generate_status`. -/
def fluidStep (s : GS) (fluid : String) : GS :=
  let (u, g1) := s.g.next
  if (1 / 2 : ℚ) < u then
    let (q, g2) := pyUniform 0 500 g1
    ⟨s.pp ++ [(fluid, Value.VRat (format_number q))], s.mc, g2⟩
  else ⟨s.pp, s.mc, g1⟩

/-- `generate_status(tick)` from the source: fill the two dicts, then
build the record (the player-position draws happen while the dict
literal is evaluated, after both loops). -/
def generate_status (sid : String) (tick : ℕ) (g : RNG) : Dict × RNG :=
  let s1 := ITEMS.foldl itemStep ⟨[], [], g⟩
  let s2 := FLUIDS.foldl fluidStep s1
  let (px, g1) := pyUniform 0 100 s2.g
  let (py, g2) := pyUniform 0 100 g1
  ([("type", .VStr "stats"), ("session_id", .VStr sid),
    ("cycle", .VInt (tick / 120)), ("tick", .VInt tick),
    ("player", .VObj
      [("position", .VObj [("x", .VRat (roundTo 1 px)),
                           ("y", .VRat (roundTo 1 py))]),
       ("surface", .VStr "nauvis"), ("health", .VRat 250)]),
    ("screenshot_path",
      .VStr ("scans/" ++ sid ++ "/tick_" ++ Nat.repr tick ++ ".jpg")),
    ("products_production", .VObj s2.pp),
    ("materials_consumption", .VObj s2.mc)], g2)

/-- One iteration of the `while True:` loop in `main`: sleep (invisible
to the output), `tick += 30`, maybe emit an event (probability draw
`< 0.2`), then emit a stats record when `tick % 120 == 0`.  Returns the
records written this iteration, the new tick and the new source. -/
def iteration (sid : String) (tick : ℕ) (g : RNG) : List Dict × ℕ × RNG :=
  let t := tick + 30
  let (u, g1) := g.next
  let (evs, g2) :=
    if u < (1 / 5 : ℚ) then
      let (e, g2) := generate_event sid t g1
      ([e], g2)
    else ([], g1)
  let (sts, g3) :=
    if t % 120 = 0 then
      let (s, g3) := generate_status sid t g2
      ([s], g3)
    else ([], g2)
  (evs ++ sts, t, g3)

/-- The records written by `n` loop iterations starting from `tick`. -/
def runFrom (sid : String) (tick : ℕ) (g : RNG) : ℕ → List Dict
  | 0 => []
  | n + 1 =>
    let (rs, t, g1) := iteration sid tick g
    rs ++ runFrom sid t g1 n

/-- The `(tick, rng)` loop state after `n` iterations. -/
def runState (sid : String) : ℕ × RNG → ℕ → ℕ × RNG
  | s, 0 => s
  | (t, g), n + 1 =>
    let (_, t1, g1) := iteration sid t g
    runState sid (t1, g1) n

/-- A whole run of `main` (modulo fuel `n`): compute the session id,
write the init record, then loop with `tick` starting at 0. -/
def runRecords (initTick : ℕ) (g : RNG) (n : ℕ) : List Dict :=
  let (sid, g1) := mkSessionId initTick g
  generate_session_init sid :: runFrom sid 0 g1 n

/-- The `tick` field of a record (the generators always set it). -/
def tickOf (r : Dict) : ℤ :=
  match List.lookup "tick" r with
  | some (.VInt n) => n
  | _ => 0

/-- The `cycle` field of a record. -/
def cycleOf (r : Dict) : ℤ :=
  match List.lookup "cycle" r with
  | some (.VInt n) => n
  | _ => 0

/-- Whether a record is a stats record (`"type": "stats"`). -/
def isStats (r : Dict) : Prop :=
  List.lookup "type" r = some (.VStr "stats")

/-- The `products_production` mapping of a stats record. -/
def ppOf (r : Dict) : Dict :=
  match List.lookup "products_production" r with
  | some (.VObj l) => l
  | _ => []

/-- The `materials_consumption` mapping of a stats record. -/
def mcOf (r : Dict) : Dict :=
  match List.lookup "materials_consumption" r with
  | some (.VObj l) => l
  | _ => []

/-- Render a natural number's decimal digits, left-padded to 5 digits
(the 5 fractional digits produced by `format_number`). -/
def natPad5 (d : ℕ) : List Char :=
  let s := (Nat.repr d).toList
  List.replicate (5 - s.length) '0' ++ s

/-- Trim trailing zeros, keeping at least one digit. -/
def trimTrailingZeros (l : List Char) : List Char :=
  let t := (l.reverse.dropWhile (fun c => c == '0')).reverse
  if t = [] then ['0'] else t

/-- Decimal rendering of a rational, as CPython renders the floats that
occur in this program (all values here carry at most 5 fractional
digits, so 5 digits then trailing-zero trimming reproduces `repr`). -/
def ratRepr (q : ℚ) : String :=
  let sign := if q < 0 then "-" else ""
  let a := if q < 0 then -q else q
  let ip : ℕ := (Int.floor a).toNat
  let fr : ℚ := a - (ip : ℚ)
  let d : ℕ := (Int.floor (fr * 100000)).toNat
  sign ++ Nat.repr ip ++ "." ++ String.mk (trimTrailingZeros (natPad5 d))

mutual
/-- `json.dumps` on a value (default separators, insertion order). -/
def dumpsValue : Value → String
  | .VStr s => "\"" ++ s ++ "\""
  | .VInt n => toString n
  | .VRat q => ratRepr q
  | .VObj l => "\x7b" ++ dumpsFields l ++ "\x7d"

/-- `json.dumps` on the fields of an object, comma-separated. -/
def dumpsFields : List (String × Value) → String
  | [] => ""
  | [(k, v)] => "\"" ++ k ++ "\": " ++ dumpsValue v
  | (k, v) :: x :: rest =>
    "\"" ++ k ++ "\": " ++ dumpsValue v ++ ", " ++ dumpsFields (x :: rest)
end

/-- `json.dumps(record)`. -/
def dumps (r : Dict) : String := "\x7b" ++ dumpsFields r ++ "\x7d"

/-- The bytes `main` writes to the output stream in a run of `n`
iterations: each record serialized and newline-terminated, in order. -/
def outputBytes (initTick : ℕ) (g : RNG) (n : ℕ) : String :=
  String.join ((runRecords initTick g n).map fun r => dumps r ++ "\n")

/-- The observable environment of `main`'s startup: whether `PIPE_PATH`
already exists, whether `os.mkfifo` raises `OSError` (and with which
message), and whether `open(PIPE_PATH, "w")` raises (and with which
message). -/
structure SysWorld where
  pipeExists : Bool
  mkfifoError : Option String
  openError : Option String

/-- The externally visible actions of `main`'s startup, in order. -/
inductive SysAction where
  | printLine (s : String)
  | mkfifoCall (p : String)
  | openWrite (p : String)
  | writeLine (s : String)

/-- `ensure_pipe()` from the source: attempt `os.mkfifo` only when the
path does not exist; on `OSError` print the failure and return. -/
def ensure_pipe (w : SysWorld) (path : String) : List SysAction :=
  if w.pipeExists then []
  else
    match w.mkfifoError with
    | none => [.mkfifoCall path, .printLine ("Created named pipe at " ++ path)]
    | some e => [.mkfifoCall path, .printLine ("Failed to create pipe: " ++ e)]

/-- The startup of `main()` up to the first loop entry: the two banner
prints, `ensure_pipe()`, the attempt to open `PIPE_PATH` for writing,
and - when the open succeeds - the init-record write that begins the
emission loop body (open failure is caught by the generic `except`
handler, which prints the error). -/
def mainStartup (w : SysWorld) (path : String) (initTick : ℕ) (g : RNG) :
    List SysAction :=
  let (sid, _) := mkSessionId initTick g
  [SysAction.printLine ("Starting Mock Generator... Session: " ++ sid),
   SysAction.printLine ("Writing to: " ++ path)]
  ++ ensure_pipe w path
  ++ [SysAction.openWrite path]
  ++ match w.openError with
     | none => [SysAction.writeLine (dumps (generate_session_init sid)),
                SysAction.printLine "[Init] Session Initialized"]
     | some e => [SysAction.printLine ("Error: " ++ e)]

/-- The common (variant-independent) keys of every event record. -/
def commonEventKeys : List String :=
  ["type", "session_id", "tick", "event_name", "player_index"]

/-- Modelled from the spec: the variant field sets exactly as spec
section 3 enumerates them ("research-related variants carry a
technology name and optional duration; crafting variants carry item
name, count, recipe name; construction/removal variants carry entity
name and 2D position").  The duration is present exactly on
`on_research_finished`. -/
def spec3VariantKeys (event_name : String) : List String :=
  if event_name = "on_research_finished" then ["tech_name", "duration"]
  else if event_name = "on_research_started" then ["tech_name"]
  else if event_name = "on_player_crafted_item" then
    ["item_name", "count", "recipe"]
  else ["entity", "position"]

/-- The variant field sets as the code produces them: as spec section 3,
but research variants additionally carry a `level` field. -/
def codeVariantKeys (event_name : String) : List String :=
  if event_name = "on_research_finished" then
    ["tech_name", "level", "duration"]
  else if event_name = "on_research_started" then ["tech_name", "level"]
  else if event_name = "on_player_crafted_item" then
    ["item_name", "count", "recipe"]
  else ["entity", "position"]

/-- A constant random source; `constRNG q` draws `q` forever. -/
def constRNG (q : ℚ) : RNG := ⟨fun _ => q, 0⟩

/-- Looking a key up in a concatenation searches the left dict first. -/
theorem lookup_append (k : String) (l1 l2 : Dict) :
    List.lookup k (l1 ++ l2) = (List.lookup k l1).or (List.lookup k l2) := by
  induction l1 with
  | nil => simp [List.lookup]
  | cons a t ih =>
    obtain ⟨a, b⟩ := a
    simp only [List.cons_append, List.lookup]
    split <;> simp [ih]

/-- Keys of a concatenation. -/
theorem dictKeys_append (l1 l2 : Dict) :
    dictKeys (l1 ++ l2) = dictKeys l1 ++ dictKeys l2 := by
  simp [dictKeys]

/-- `random.choice` returns an element of a nonempty list. -/
theorem pyChoice_mem (l : List String) (g : RNG) (h : l ≠ []) :
    (pyChoice l g).1 ∈ l := by
  unfold pyChoice RNG.next
  simp only
  have hl : 0 < l.length := List.length_pos.mpr h
  have hlt : min (l.length - 1) (Int.floor (g.f g.k * (l.length : ℚ))).toNat < l.length := by
    have := min_le_left (l.length - 1) (Int.floor (g.f g.k * (l.length : ℚ))).toNat
    omega
  rw [List.getD_eq_getElem l "" hlt]
  exact List.getElem_mem hlt

/-- The part of `generate_event` that follows the event-name choice,
with the chosen name and the post-choice source as parameters.
`generate_event_eq` below checks definitionally that `generate_event`
is the composition of `pyChoice` with this. -/
def eventVariant (sid : String) (tick : ℕ) (event_name : String) (g1 : RNG) :
    Dict × RNG :=
  let payload : Dict := eventPayload sid tick event_name
  let (extra, g2) :=
    if strContains event_name "research" then
      let (t, g2) := pyChoice TECHS g1
      let (lv, g3) := pyRandint 1 5 g2
      if event_name = "on_research_finished" then
        let (d, g4) := pyUniform 60 600 g3
        ([("tech_name", Value.VStr t), ("level", Value.VInt lv),
          ("duration", Value.VRat (roundTo 2 d))], g4)
      else
        ([("tech_name", Value.VStr t), ("level", Value.VInt lv)], g3)
    else if event_name = "on_player_crafted_item" then
      let (item, g2) := pyChoice RECIPES g1
      let (c, g3) := pyRandint 1 5 g2
      ([("item_name", Value.VStr item), ("count", Value.VInt c),
        ("recipe", Value.VStr item)], g3)
    else
      let (e, g2) := pyChoice ENTITIES g1
      let (x, g3) := pyUniform 0 100 g2
      let (y, g4) := pyUniform 0 100 g3
      ([("entity", Value.VStr e),
        ("position", Value.VObj [("x", Value.VRat (roundTo 1 x)),
                                 ("y", Value.VRat (roundTo 1 y))])], g4)
  (payload ++ extra, g2)

/-- `generate_event` is the event-name choice followed by `eventVariant`. -/
theorem generate_event_eq (sid : String) (tick : ℕ) (g : RNG) :
    generate_event sid tick g =
      eventVariant sid tick
        (pyChoice (EVENT_TYPES ++ ["on_player_crafted_item"]) g).1
        (pyChoice (EVENT_TYPES ++ ["on_player_crafted_item"]) g).2 := rfl

/-- Case analysis of `eventVariant` over the five possible event names:
the record is the common payload followed by exactly one variant field
set, whose keys are `codeVariantKeys` of the name. -/
theorem eventVariant_shape (sid : String) (tick : ℕ) (nm : String) (g1 : RNG)
    (hmem : nm ∈ EVENT_TYPES ++ ["on_player_crafted_item"]) :
    ∃ extra g2,
      eventVariant sid tick nm g1 = (eventPayload sid tick nm ++ extra, g2) ∧
      dictKeys extra = codeVariantKeys nm ∧
      (nm = "on_research_started" →
        ∃ t ∈ TECHS, ∃ lv : ℤ,
          extra = [("tech_name", .VStr t), ("level", .VInt lv)]) ∧
      (nm = "on_research_finished" →
        ∃ t ∈ TECHS, ∃ lv : ℤ, ∃ d : ℚ,
          extra = [("tech_name", .VStr t), ("level", .VInt lv),
                   ("duration", .VRat d)]) ∧
      (nm = "on_player_crafted_item" →
        ∃ item ∈ RECIPES, ∃ c : ℤ,
          extra = [("item_name", .VStr item), ("count", .VInt c),
                   ("recipe", .VStr item)]) ∧
      (nm = "on_built_entity" ∨ nm = "on_player_mined_entity" →
        ∃ e ∈ ENTITIES, ∃ x y : ℚ,
          extra = [("entity", .VStr e),
                   ("position", .VObj [("x", .VRat x), ("y", .VRat y)])]) := by
  have hT : TECHS ≠ [] := by simp [TECHS]
  have hR : RECIPES ≠ [] := by simp [RECIPES]
  have hE : ENTITIES ≠ [] := by simp [ENTITIES]
  simp only [EVENT_TYPES, List.cons_append, List.nil_append, List.mem_cons,
    List.not_mem_nil, or_false] at hmem
  rcases hmem with h | h | h | h | h <;> subst h
  · exact ⟨_, _, rfl, rfl,
      fun h => absurd h (by decide), fun h => absurd h (by decide),
      fun h => absurd h (by decide),
      fun _ => ⟨(pyChoice ENTITIES g1).1, pyChoice_mem ENTITIES g1 hE, _, _, rfl⟩⟩
  · exact ⟨_, _, rfl, rfl,
      fun h => absurd h (by decide), fun h => absurd h (by decide),
      fun h => absurd h (by decide),
      fun _ => ⟨(pyChoice ENTITIES g1).1, pyChoice_mem ENTITIES g1 hE, _, _, rfl⟩⟩
  · exact ⟨_, _, rfl, rfl,
      fun _ => ⟨(pyChoice TECHS g1).1, pyChoice_mem TECHS g1 hT, _, rfl⟩,
      fun h => absurd h (by decide), fun h => absurd h (by decide),
      fun h => by rcases h with h | h <;> exact absurd h (by decide)⟩
  · exact ⟨_, _, rfl, rfl,
      fun h => absurd h (by decide),
      fun _ => ⟨(pyChoice TECHS g1).1, pyChoice_mem TECHS g1 hT, _, _, rfl⟩,
      fun h => absurd h (by decide),
      fun h => by rcases h with h | h <;> exact absurd h (by decide)⟩
  · exact ⟨_, _, rfl, rfl,
      fun h => absurd h (by decide), fun h => absurd h (by decide),
      fun _ => ⟨(pyChoice RECIPES g1).1, pyChoice_mem RECIPES g1 hR, _, rfl⟩,
      fun h => by rcases h with h | h <;> exact absurd h (by decide)⟩

/-- `generate_event` always produces the common payload followed by
exactly one variant field set matching the chosen event name. -/
theorem generate_event_shape (sid : String) (tick : ℕ) (g : RNG) :
    ∃ nm extra g2,
      nm ∈ EVENT_TYPES ++ ["on_player_crafted_item"] ∧
      generate_event sid tick g = (eventPayload sid tick nm ++ extra, g2) ∧
      dictKeys extra = codeVariantKeys nm ∧
      (nm = "on_research_started" →
        ∃ t ∈ TECHS, ∃ lv : ℤ,
          extra = [("tech_name", .VStr t), ("level", .VInt lv)]) ∧
      (nm = "on_research_finished" →
        ∃ t ∈ TECHS, ∃ lv : ℤ, ∃ d : ℚ,
          extra = [("tech_name", .VStr t), ("level", .VInt lv),
                   ("duration", .VRat d)]) ∧
      (nm = "on_player_crafted_item" →
        ∃ item ∈ RECIPES, ∃ c : ℤ,
          extra = [("item_name", .VStr item), ("count", .VInt c),
                   ("recipe", .VStr item)]) ∧
      (nm = "on_built_entity" ∨ nm = "on_player_mined_entity" →
        ∃ e ∈ ENTITIES, ∃ x y : ℚ,
          extra = [("entity", .VStr e),
                   ("position", .VObj [("x", .VRat x), ("y", .VRat y)])]) := by
  have hmem := pyChoice_mem (EVENT_TYPES ++ ["on_player_crafted_item"]) g
    (by simp [EVENT_TYPES])
  obtain ⟨extra, g2, heq, hk, h1, h2, h3, h4⟩ :=
    eventVariant_shape sid tick _
      (pyChoice (EVENT_TYPES ++ ["on_player_crafted_item"]) g).2 hmem
  exact ⟨_, extra, g2, hmem, by rw [generate_event_eq]; exact heq,
    hk, h1, h2, h3, h4⟩

/-- Closed form of one loop iteration, with the branch structure made
explicit so later proofs can split on the two conditions. -/
theorem iteration_eq (sid : String) (tick : ℕ) (g : RNG) :
    iteration sid tick g =
      ((if g.f g.k < (1 / 5 : ℚ)
          then [(generate_event sid (tick + 30) ⟨g.f, g.k + 1⟩).1] else []) ++
       (if (tick + 30) % 120 = 0
          then [(generate_status sid (tick + 30)
                  (if g.f g.k < (1 / 5 : ℚ)
                     then (generate_event sid (tick + 30) ⟨g.f, g.k + 1⟩).2
                     else ⟨g.f, g.k + 1⟩)).1] else []),
       tick + 30,
       (if (tick + 30) % 120 = 0
          then (generate_status sid (tick + 30)
                 (if g.f g.k < (1 / 5 : ℚ)
                    then (generate_event sid (tick + 30) ⟨g.f, g.k + 1⟩).2
                    else ⟨g.f, g.k + 1⟩)).2
          else (if g.f g.k < (1 / 5 : ℚ)
                  then (generate_event sid (tick + 30) ⟨g.f, g.k + 1⟩).2
                  else ⟨g.f, g.k + 1⟩))) := by
  unfold iteration
  simp only [RNG.next]
  rcases hge : generate_event sid (tick + 30) ⟨g.f, g.k + 1⟩ with ⟨e, ge2⟩
  rcases hgsA : generate_status sid (tick + 30) ge2 with ⟨sA, gA⟩
  rcases hgsB : generate_status sid (tick + 30) ⟨g.f, g.k + 1⟩ with ⟨sB, gB⟩
  split_ifs with h1 h2 <;> simp only [hge, hgsA, hgsB]

/-- Every event record is tagged `"type": "event"`. -/
theorem event_lookup_type (sid : String) (tick : ℕ) (g : RNG) :
    List.lookup "type" (generate_event sid tick g).1 = some (.VStr "event") := by
  obtain ⟨nm, extra, g2, _, heq, _⟩ := generate_event_shape sid tick g
  rw [heq]
  rfl

/-- Every event record carries the session id it was built with. -/
theorem event_lookup_session (sid : String) (tick : ℕ) (g : RNG) :
    List.lookup "session_id" (generate_event sid tick g).1 =
      some (.VStr sid) := by
  obtain ⟨nm, extra, g2, _, heq, _⟩ := generate_event_shape sid tick g
  rw [heq]
  rfl

/-- Every event record carries the tick it was built with. -/
theorem event_tickOf (sid : String) (tick : ℕ) (g : RNG) :
    tickOf (generate_event sid tick g).1 = (tick : ℤ) := by
  obtain ⟨nm, extra, g2, _, heq, _⟩ := generate_event_shape sid tick g
  rw [heq]
  rfl

/-- Stats records are tagged `"type": "stats"`. -/
theorem status_lookup_type (sid : String) (tick : ℕ) (g : RNG) :
    List.lookup "type" (generate_status sid tick g).1 = some (.VStr "stats") :=
  rfl

/-- Stats records carry the session id they were built with. -/
theorem status_lookup_session (sid : String) (tick : ℕ) (g : RNG) :
    List.lookup "session_id" (generate_status sid tick g).1 =
      some (.VStr sid) := rfl

/-- Stats records carry the tick they were built with. -/
theorem status_tickOf (sid : String) (tick : ℕ) (g : RNG) :
    tickOf (generate_status sid tick g).1 = (tick : ℤ) := rfl

/-- Stats records carry `cycle = tick // 120`. -/
theorem status_cycleOf (sid : String) (tick : ℕ) (g : RNG) :
    cycleOf (generate_status sid tick g).1 = ((tick / 120 : ℕ) : ℤ) := rfl

/-- Any record emitted by a loop iteration entered with counter `tick`
is either an event record or a stats record for tick `tick + 30`. -/
theorem iteration_mem (sid : String) (tick : ℕ) (g : RNG) {r : Dict}
    (h : r ∈ (iteration sid tick g).1) :
    (∃ g1, r = (generate_event sid (tick + 30) g1).1) ∨
    ((tick + 30) % 120 = 0 ∧
      ∃ g2, r = (generate_status sid (tick + 30) g2).1) := by
  rw [iteration_eq] at h
  simp only [List.mem_append] at h
  rcases h with h | h
  · left
    split at h
    · simp only [List.mem_singleton] at h
      exact ⟨_, h⟩
    · simp at h
  · right
    split at h
    · simp only [List.mem_singleton] at h
      exact ⟨by assumption, _, h⟩
    · simp at h

/-- When the incremented tick is a multiple of 120, the iteration does
emit a stats record. -/
theorem iteration_stats_mem (sid : String) (tick : ℕ) (g : RNG)
    (h : (tick + 30) % 120 = 0) :
    ∃ g2, (generate_status sid (tick + 30) g2).1 ∈ (iteration sid tick g).1 := by
  refine ⟨if g.f g.k < (1 / 5 : ℚ)
            then (generate_event sid (tick + 30) ⟨g.f, g.k + 1⟩).2
            else ⟨g.f, g.k + 1⟩, ?_⟩
  rw [iteration_eq]
  simp [h]

/-- The loop advances the tick counter by exactly 30 per iteration. -/
theorem iteration_snd (sid : String) (tick : ℕ) (g : RNG) :
    (iteration sid tick g).2.1 = tick + 30 := by
  rw [iteration_eq]

/-- Unfolding one step of `runFrom`. -/
theorem runFrom_succ (sid : String) (tick : ℕ) (g : RNG) (n : ℕ) :
    runFrom sid tick g (n + 1) =
      (iteration sid tick g).1 ++
        runFrom sid (iteration sid tick g).2.1 (iteration sid tick g).2.2 n := by
  rcases hit : iteration sid tick g with ⟨rs, t1, g1⟩
  simp [runFrom, hit]

/-- Classification of the records emitted by the loop: every one is an
event or stats record for some strictly larger, 30-aligned tick. -/
theorem runFrom_mem (sid : String) :
    ∀ (n tick : ℕ) (g : RNG) {r : Dict}, r ∈ runFrom sid tick g n →
      ∃ t1 : ℕ, tick < t1 ∧
        ((∃ g1, r = (generate_event sid t1 g1).1) ∨
         (t1 % 120 = 0 ∧ ∃ g2, r = (generate_status sid t1 g2).1)) := by
  intro n
  induction n with
  | zero => intro tick g r h; simp [runFrom] at h
  | succ n ih =>
    intro tick g r h
    rw [runFrom_succ] at h
    rcases List.mem_append.mp h with h | h
    · exact ⟨tick + 30, by omega, iteration_mem sid tick g h⟩
    · rw [iteration_snd] at h
      obtain ⟨t1, ht1, hr⟩ := ih (tick + 30) _ h
      exact ⟨t1, by omega, hr⟩

/-- Every record emitted by the loop carries the session id. -/
theorem runFrom_session (sid : String) (n tick : ℕ) (g : RNG) {r : Dict}
    (h : r ∈ runFrom sid tick g n) :
    List.lookup "session_id" r = some (.VStr sid) := by
  obtain ⟨t1, _, hr | hr⟩ := runFrom_mem sid n tick g h
  · obtain ⟨g1, rfl⟩ := hr
    exact event_lookup_session sid t1 g1
  · obtain ⟨g2, rfl⟩ := hr.2
    exact status_lookup_session sid t1 g2

/-- A list whose elements are all equal is a `≤`-chain. -/
theorem chain'_const {l : List ℤ} {c : ℤ} (h : ∀ x ∈ l, x = c) :
    List.Chain' (fun a b => a ≤ b) l := by
  induction l with
  | nil => simp
  | cons a t ih =>
    rw [List.chain'_cons']
    refine ⟨fun y hy => ?_, ih fun x hx => h x (by simp [hx])⟩
    rw [h a (by simp), h y (by simp [List.mem_of_mem_head? hy])]

/-- All records of one iteration carry the same tick, `tick + 30`. -/
theorem iteration_tickOf (sid : String) (tick : ℕ) (g : RNG) {r : Dict}
    (h : r ∈ (iteration sid tick g).1) : tickOf r = ((tick + 30 : ℕ) : ℤ) := by
  rcases iteration_mem sid tick g h with ⟨g1, rfl⟩ | ⟨_, g2, rfl⟩
  · exact event_tickOf sid (tick + 30) g1
  · exact status_tickOf sid (tick + 30) g2

/-- The tick values of the loop's records form a non-decreasing chain
bounded below by `tick + 30`. -/
theorem runFrom_chain (sid : String) :
    ∀ (n tick : ℕ) (g : RNG),
      List.Chain' (fun a b => a ≤ b) ((runFrom sid tick g n).map tickOf) ∧
      ∀ x ∈ (runFrom sid tick g n).map tickOf, ((tick : ℤ) + 30) ≤ x := by
  intro n
  induction n with
  | zero => intro tick g; simp [runFrom]
  | succ n ih =>
    intro tick g
    rw [runFrom_succ, iteration_snd, List.map_append]
    obtain ⟨ihc, ihb⟩ := ih (tick + 30) (iteration sid tick g).2.2
    have hconst : ∀ x ∈ (iteration sid tick g).1.map tickOf,
        x = ((tick + 30 : ℕ) : ℤ) := by
      intro x hx
      obtain ⟨r, hr, rfl⟩ := List.mem_map.mp hx
      exact iteration_tickOf sid tick g hr
    constructor
    · refine List.Chain'.append (chain'_const hconst) ihc ?_
      intro x hx y hy
      rw [hconst x (List.mem_of_mem_getLast? hx)]
      have := ihb y (List.mem_of_mem_head? hy)
      push_cast
      push_cast at this
      linarith
    · intro x hx
      rcases List.mem_append.mp hx with hx | hx
      · rw [hconst x hx]; push_cast; linarith
      · have := ihb x hx; push_cast at this ⊢; linarith

/-- The loop's tick counter after `n` iterations starting at `t`. -/
theorem runState_tick (sid : String) :
    ∀ (n t : ℕ) (g : RNG), (runState sid (t, g) n).1 = t + 30 * n := by
  intro n
  induction n with
  | zero => intro t g; simp [runState]
  | succ n ih =>
    intro t g
    rcases hit : iteration sid t g with ⟨rs, t1, g1⟩
    have ht1 : t1 = t + 30 := by
      have := iteration_snd sid t g
      rw [hit] at this
      exact this
    simp only [runState, hit]
    rw [ih t1 g1, ht1]
    ring

/-- Event records are never stats records. -/
theorem not_isStats_event (sid : String) (tick : ℕ) (g : RNG) :
    ¬ isStats (generate_event sid tick g).1 := by
  intro hs
  simp only [isStats] at hs
  rw [event_lookup_type] at hs
  simp at hs

/-- The init record is not a stats record. -/
theorem not_isStats_init (sid : String) :
    ¬ isStats (generate_session_init sid) := by
  intro hs
  have h2 : some (Value.VStr "session_init") = some (Value.VStr "stats") := hs
  simp at h2

/-- Closed form of a whole run: the init record followed by the loop. -/
theorem runRecords_eq (t0 : ℕ) (g : RNG) (n : ℕ) :
    runRecords t0 g n =
      generate_session_init (mkSessionId t0 g).1 ::
        runFrom (mkSessionId t0 g).1 0 (mkSessionId t0 g).2 n := by
  rcases h : mkSessionId t0 g with ⟨sid, g1⟩
  simp [runRecords, h]

/-- C1: in every loop iteration a stats record is written if and only
if the current (incremented) tick is an exact multiple of 120, and in
every emitted stats record the `cycle` field equals the record's own
`tick` field divided by 120 with integer division. -/
theorem C1_stats_iff_mod120_and_cycle :
    (∀ (sid : String) (tick : ℕ) (g : RNG),
        (∃ r ∈ (iteration sid tick g).1, isStats r) ↔ (tick + 30) % 120 = 0) ∧
    (∀ (t0 : ℕ) (g : RNG) (n : ℕ) (r : Dict), r ∈ runRecords t0 g n →
        isStats r → cycleOf r = tickOf r / 120) := by
  constructor
  · intro sid tick g
    constructor
    · rintro ⟨r, hr, hs⟩
      rcases iteration_mem sid tick g hr with ⟨g1, rfl⟩ | ⟨hmod, _⟩
      · exact absurd hs (not_isStats_event sid (tick + 30) g1)
      · exact hmod
    · intro hmod
      obtain ⟨g2, hmem⟩ := iteration_stats_mem sid tick g hmod
      exact ⟨_, hmem, status_lookup_type sid (tick + 30) g2⟩
  · intro t0 g n r hmem hs
    rw [runRecords_eq] at hmem
    rcases List.mem_cons.mp hmem with rfl | hmem
    · exact absurd hs (not_isStats_init _)
    · obtain ⟨t1, _, ⟨g1, rfl⟩ | ⟨_, g2, rfl⟩⟩ :=
        runFrom_mem (mkSessionId t0 g).1 n 0 (mkSessionId t0 g).2 hmem
      · exact absurd hs (not_isStats_event _ t1 g1)
      · rw [status_cycleOf, status_tickOf, Int.natCast_div]
        norm_num

/-- Witness for C1: in a concrete four-iteration run reaching tick 120,
a stats record is present and its cycle field is its tick field
divided by 120. -/
theorem C1_witness :
    (generate_status (mkSessionId 1000 (constRNG (1 / 4))).1 120
        ⟨(constRNG (1 / 4)).f, 5⟩).1 ∈ runRecords 1000 (constRNG (1 / 4)) 4 ∧
    isStats (generate_status (mkSessionId 1000 (constRNG (1 / 4))).1 120
        ⟨(constRNG (1 / 4)).f, 5⟩).1 ∧
    cycleOf (generate_status (mkSessionId 1000 (constRNG (1 / 4))).1 120
        ⟨(constRNG (1 / 4)).f, 5⟩).1 =
      tickOf (generate_status (mkSessionId 1000 (constRNG (1 / 4))).1 120
        ⟨(constRNG (1 / 4)).f, 5⟩).1 / 120 := by
  have hrun : runRecords 1000 (constRNG (1 / 4)) 4 =
      [generate_session_init (mkSessionId 1000 (constRNG (1 / 4))).1,
       (generate_status (mkSessionId 1000 (constRNG (1 / 4))).1 120
          ⟨(constRNG (1 / 4)).f, 5⟩).1] := by
    rw [runRecords_eq]
    norm_num [runFrom_succ, iteration_eq, iteration_snd, runFrom,
      mkSessionId, pyRandint, RNG.next, constRNG]
  have hmem : (generate_status (mkSessionId 1000 (constRNG (1 / 4))).1 120
      ⟨(constRNG (1 / 4)).f, 5⟩).1 ∈ runRecords 1000 (constRNG (1 / 4)) 4 := by
    rw [hrun]
    exact List.Mem.tail _ (List.Mem.head _)
  have hs : isStats (generate_status (mkSessionId 1000 (constRNG (1 / 4))).1 120
      ⟨(constRNG (1 / 4)).f, 5⟩).1 := rfl
  exact ⟨hmem, hs,
    C1_stats_iff_mod120_and_cycle.2 1000 (constRNG (1 / 4)) 4 _ hmem hs⟩

/-- C2: in every run the first record written is the init record with
tick 0, and every record of the run (the init record and all later
event/stats records) carries the same session id. -/
theorem C2_init_first_shared_session :
    ∀ (t0 : ℕ) (g : RNG) (n : ℕ),
      (runRecords t0 g n).head? =
        some (generate_session_init (mkSessionId t0 g).1) ∧
      List.lookup "tick" (generate_session_init (mkSessionId t0 g).1) =
        some (.VInt 0) ∧
      List.lookup "type" (generate_session_init (mkSessionId t0 g).1) =
        some (.VStr "session_init") ∧
      ∀ r ∈ runRecords t0 g n,
        List.lookup "session_id" r = some (.VStr (mkSessionId t0 g).1) := by
  intro t0 g n
  refine ⟨by rw [runRecords_eq]; rfl, rfl, rfl, ?_⟩
  intro r hr
  rw [runRecords_eq] at hr
  rcases List.mem_cons.mp hr with rfl | hr
  · rfl
  · exact runFrom_session (mkSessionId t0 g).1 n 0 (mkSessionId t0 g).2 hr

/-- Witness for C2: in a concrete run, the stats record written at tick
120 carries the init record's session id. -/
theorem C2_witness :
    (generate_status (mkSessionId 1000 (constRNG (1 / 4))).1 120
        ⟨(constRNG (1 / 4)).f, 5⟩).1 ∈ runRecords 1000 (constRNG (1 / 4)) 4 ∧
    List.lookup "session_id"
        (generate_status (mkSessionId 1000 (constRNG (1 / 4))).1 120
          ⟨(constRNG (1 / 4)).f, 5⟩).1 =
      some (.VStr (mkSessionId 1000 (constRNG (1 / 4))).1) := by
  have hrun : runRecords 1000 (constRNG (1 / 4)) 4 =
      [generate_session_init (mkSessionId 1000 (constRNG (1 / 4))).1,
       (generate_status (mkSessionId 1000 (constRNG (1 / 4))).1 120
          ⟨(constRNG (1 / 4)).f, 5⟩).1] := by
    rw [runRecords_eq]
    norm_num [runFrom_succ, iteration_eq, iteration_snd, runFrom,
      mkSessionId, pyRandint, RNG.next, constRNG]
  have hmem : (generate_status (mkSessionId 1000 (constRNG (1 / 4))).1 120
      ⟨(constRNG (1 / 4)).f, 5⟩).1 ∈ runRecords 1000 (constRNG (1 / 4)) 4 := by
    rw [hrun]
    exact List.Mem.tail _ (List.Mem.head _)
  exact ⟨hmem,
    (C2_init_first_shared_session 1000 (constRNG (1 / 4)) 4).2.2.2 _ hmem⟩

/-- C3: the tick counter starts at 0, advances by exactly 30 per loop
iteration, and consequently the tick fields of the records written to
the stream are non-decreasing. -/
theorem C3_tick_monotone :
    (∀ (sid : String) (tick : ℕ) (g : RNG),
        (iteration sid tick g).2.1 = tick + 30) ∧
    (∀ (sid : String) (g : RNG) (n : ℕ),
        (runState sid (0, g) n).1 = 30 * n) ∧
    (∀ (t0 : ℕ) (g : RNG) (n : ℕ),
        List.Chain' (fun a b => a ≤ b) ((runRecords t0 g n).map tickOf)) := by
  refine ⟨iteration_snd, fun sid g n => by rw [runState_tick]; ring, ?_⟩
  intro t0 g n
  rw [runRecords_eq, List.map_cons]
  rw [List.chain'_cons']
  obtain ⟨hc, hb⟩ := runFrom_chain (mkSessionId t0 g).1 n 0 (mkSessionId t0 g).2
  refine ⟨fun y hy => ?_, hc⟩
  have := hb y (List.mem_of_mem_head? hy)
  have h0 : tickOf (generate_session_init (mkSessionId t0 g).1) = 0 := rfl
  rw [h0]
  push_cast at this
  linarith

/-- Counterexample for C4: two runs with pointwise identical random
draws (the same fixed seed) but different wall-clock start times write
different bytes, because the init timestamp is embedded in the session
id.  Here only the init record is compared (zero loop iterations). -/
theorem C4_counterexample :
    outputBytes 1000 (constRNG (1 / 4)) 0 ≠
      outputBytes 2000 (constRNG (1 / 4)) 0 := by
  decide

/-- C4 (amended): two runs with the same initialization timestamp and
the same random draw stream write byte-identical output, for every
number of loop iterations. -/
theorem C4_same_seed_same_time_deterministic :
    ∀ (t0 : ℕ) (g g' : RNG) (n : ℕ),
      g.k = g'.k → (∀ i, g.f i = g'.f i) →
      outputBytes t0 g n = outputBytes t0 g' n := by
  intro t0 g g' n hk hf
  obtain ⟨f, k⟩ := g
  obtain ⟨f', k'⟩ := g'
  have hfe : f = f' := funext hf
  subst hfe
  simp only at hk
  subst hk
  rfl

/-- Witness for C4 (amended): two syntactically different but
pointwise equal sources yield the same bytes. -/
theorem C4_witness :
    (constRNG 0).k = (RNG.mk (fun i => (i : ℚ) * 0) 0).k ∧
    (∀ i, (constRNG 0).f i = (RNG.mk (fun i => (i : ℚ) * 0) 0).f i) ∧
    outputBytes 1000 (constRNG 0) 1 =
      outputBytes 1000 (RNG.mk (fun i => (i : ℚ) * 0) 0) 1 := by
  refine ⟨rfl, fun i => by simp [constRNG], ?_⟩
  exact C4_same_seed_same_time_deterministic 1000 (constRNG 0)
    (RNG.mk (fun i => (i : ℚ) * 0) 0) 1 rfl (fun i => by simp [constRNG])

/-- Counterexample for C5: when no candidate's parent directory exists,
the code keeps the FIRST candidate (the initial `PIPE_PATH =
POSSIBLE_PATHS[0]` assignment), not the last one as claimed. -/
theorem C5_counterexample :
    selectPIPE_PATH (POSSIBLE_PATHS "/root") (fun _ => false) =
      "/root/Library/Application Support/factorio/script-output/events.pipe" ∧
    (POSSIBLE_PATHS "/root").getLast? = some "/tmp/events.pipe" ∧
    selectPIPE_PATH (POSSIBLE_PATHS "/root") (fun _ => false) ≠
      "/tmp/events.pipe" := by
  refine ⟨rfl, rfl, ?_⟩
  decide

/-- C5 (amended): the output path is the first candidate whose parent
directory exists; if no candidate qualifies, the FIRST candidate in the
list is selected. -/
theorem C5_first_match_or_first_fallback :
    ∀ (p0 : String) (rest : List String) (parentExists : String → Bool),
      ((∀ p ∈ p0 :: rest, parentExists p = false) →
        selectPIPE_PATH (p0 :: rest) parentExists = p0) ∧
      (∀ q, (p0 :: rest).find? parentExists = some q →
        selectPIPE_PATH (p0 :: rest) parentExists = q ∧
        parentExists q = true ∧ q ∈ p0 :: rest) := by
  intro p0 rest parentExists
  constructor
  · intro hnone
    have hfind : (p0 :: rest).find? parentExists = none :=
      List.find?_eq_none.mpr fun x hx => by rw [hnone x hx]; simp
    rw [selectPIPE_PATH, hfind]
    rfl
  · intro q hq
    rw [selectPIPE_PATH, hq]
    exact ⟨rfl, List.find?_some hq, List.mem_of_find?_eq_some hq⟩

/-- Witness for C5 (amended): with the concrete candidate list and a
parent-existence probe that always fails, the first candidate wins. -/
theorem C5_witness :
    (∀ p ∈ ("/home/u/Library/Application Support/factorio/script-output/events.pipe" ::
        ["/tmp/events.pipe"]), (fun _ => false : String → Bool) p = false) ∧
    selectPIPE_PATH
      ("/home/u/Library/Application Support/factorio/script-output/events.pipe" ::
        ["/tmp/events.pipe"]) (fun _ => false) =
      "/home/u/Library/Application Support/factorio/script-output/events.pipe" := by
  refine ⟨fun p _ => rfl, ?_⟩
  exact (C5_first_match_or_first_fallback
    "/home/u/Library/Application Support/factorio/script-output/events.pipe"
    ["/tmp/events.pipe"] (fun _ => false)).1 (fun p _ => rfl)

/-- Counterexample for C6: a research event record carries a `level`
field, so its field set is not among those enumerated in spec section 3
(which allows research variants only a technology name and an optional
duration). -/
theorem C6_counterexample :
    List.lookup "event_name" (generate_event "s" 30 (constRNG (1 / 2))).1 =
      some (.VStr "on_research_started") ∧
    dictKeys (generate_event "s" 30 (constRNG (1 / 2))).1 ≠
      commonEventKeys ++ spec3VariantKeys "on_research_started" := by
  have h1 : (pyChoice (EVENT_TYPES ++ ["on_player_crafted_item"])
      (constRNG (1 / 2))).1 = "on_research_started" := by
    norm_num [pyChoice, RNG.next, constRNG, EVENT_TYPES]
    rfl
  have hrec : (generate_event "s" 30 (constRNG (1 / 2))).1 =
      eventPayload "s" 30 "on_research_started" ++
        [("tech_name", Value.VStr (pyChoice TECHS
            (pyChoice (EVENT_TYPES ++ ["on_player_crafted_item"])
              (constRNG (1 / 2))).2).1),
         ("level", Value.VInt (pyRandint 1 5 (pyChoice TECHS
            (pyChoice (EVENT_TYPES ++ ["on_player_crafted_item"])
              (constRNG (1 / 2))).2).2).1)] := by
    rw [generate_event_eq, h1]
    rfl
  rw [hrec]
  refine ⟨rfl, ?_⟩
  rw [dictKeys_append]
  decide

/-- C6 (amended): every event record is the common payload plus exactly
one variant field set matching the selected event name; the field sets
are those of spec section 3 amended so that research variants also
carry a `level` field (`codeVariantKeys`). -/
theorem C6_exactly_one_variant :
    ∀ (sid : String) (tick : ℕ) (g : RNG),
      ∃ nm extra,
        (generate_event sid tick g).1 = eventPayload sid tick nm ++ extra ∧
        List.lookup "event_name" (generate_event sid tick g).1 =
          some (.VStr nm) ∧
        nm ∈ EVENT_TYPES ++ ["on_player_crafted_item"] ∧
        dictKeys (generate_event sid tick g).1 =
          commonEventKeys ++ codeVariantKeys nm ∧
        (nm = "on_research_started" →
          ∃ t ∈ TECHS, ∃ lv : ℤ,
            extra = [("tech_name", .VStr t), ("level", .VInt lv)]) ∧
        (nm = "on_research_finished" →
          ∃ t ∈ TECHS, ∃ lv : ℤ, ∃ d : ℚ,
            extra = [("tech_name", .VStr t), ("level", .VInt lv),
                     ("duration", .VRat d)]) ∧
        (nm = "on_player_crafted_item" →
          ∃ item ∈ RECIPES, ∃ c : ℤ,
            extra = [("item_name", .VStr item), ("count", .VInt c),
                     ("recipe", .VStr item)]) ∧
        (nm = "on_built_entity" ∨ nm = "on_player_mined_entity" →
          ∃ e ∈ ENTITIES, ∃ x y : ℚ,
            extra = [("entity", .VStr e),
                     ("position", .VObj [("x", .VRat x), ("y", .VRat y)])]) := by
  intro sid tick g
  obtain ⟨nm, extra, g2, hmem, heq, hk, h1, h2, h3, h4⟩ :=
    generate_event_shape sid tick g
  have hr : (generate_event sid tick g).1 = eventPayload sid tick nm ++ extra := by
    rw [heq]
  refine ⟨nm, extra, hr, ?_, hmem, ?_, h1, h2, h3, h4⟩
  · rw [hr]
    rfl
  · rw [hr, dictKeys_append, hk]
    rfl

/-- Witness for C6 (amended): a concrete research-started event record
whose keys are the common payload keys followed by
`["tech_name", "level"]`. -/
theorem C6_witness :
    List.lookup "event_name" (generate_event "s" 30 (constRNG (1 / 2))).1 =
      some (.VStr "on_research_started") ∧
    dictKeys (generate_event "s" 30 (constRNG (1 / 2))).1 =
      commonEventKeys ++ codeVariantKeys "on_research_started" := by
  obtain ⟨nm, extra, hr, hen, hmem, hk, h1, h2, h3, h4⟩ :=
    C6_exactly_one_variant "s" 30 (constRNG (1 / 2))
  have hc : (pyChoice (EVENT_TYPES ++ ["on_player_crafted_item"])
      (constRNG (1 / 2))).1 = "on_research_started" := by
    norm_num [pyChoice, RNG.next, constRNG, EVENT_TYPES]
    rfl
  have hrec : (generate_event "s" 30 (constRNG (1 / 2))).1 =
      eventPayload "s" 30 "on_research_started" ++
        [("tech_name", Value.VStr (pyChoice TECHS
            (pyChoice (EVENT_TYPES ++ ["on_player_crafted_item"])
              (constRNG (1 / 2))).2).1),
         ("level", Value.VInt (pyRandint 1 5 (pyChoice TECHS
            (pyChoice (EVENT_TYPES ++ ["on_player_crafted_item"])
              (constRNG (1 / 2))).2).2).1)] := by
    rw [generate_event_eq, hc]
    rfl
  have hlook : List.lookup "event_name"
      (generate_event "s" 30 (constRNG (1 / 2))).1 =
      some (Value.VStr "on_research_started") := by
    rw [hrec]
    rfl
  have h0 := hen.symm.trans hlook
  simp only [Option.some.injEq, Value.VStr.injEq] at h0
  subst h0
  exact ⟨hlook, hk⟩

/-- C10: in every crafted-item event record, the `recipe` field equals
the `item_name` field; both come from the single `random.choice(RECIPES)`
call. -/
theorem C10_recipe_equals_item_name :
    ∀ (sid : String) (tick : ℕ) (g : RNG),
      List.lookup "event_name" (generate_event sid tick g).1 =
        some (.VStr "on_player_crafted_item") →
      ∃ item ∈ RECIPES,
        List.lookup "item_name" (generate_event sid tick g).1 =
          some (.VStr item) ∧
        List.lookup "recipe" (generate_event sid tick g).1 =
          some (.VStr item) := by
  intro sid tick g hen
  obtain ⟨nm, extra, g2, hmem, heq, hk, h1, h2, h3, h4⟩ :=
    generate_event_shape sid tick g
  have hr : (generate_event sid tick g).1 = eventPayload sid tick nm ++ extra := by
    rw [heq]
  have hnm : List.lookup "event_name" (generate_event sid tick g).1 =
      some (.VStr nm) := by
    rw [hr]
    rfl
  have h0 := hnm.symm.trans hen
  simp only [Option.some.injEq, Value.VStr.injEq] at h0
  obtain ⟨item, hitem, c, hextra⟩ := h3 h0
  subst hextra
  rw [hr]
  exact ⟨item, hitem, rfl, rfl⟩

/-- Witness for C10: a concrete crafted-item record; its `item_name`
and `recipe` fields are equal. -/
theorem C10_witness :
    List.lookup "event_name" (generate_event "s" 30 (constRNG (9 / 10))).1 =
      some (.VStr "on_player_crafted_item") ∧
    ∃ item ∈ RECIPES,
      List.lookup "item_name" (generate_event "s" 30 (constRNG (9 / 10))).1 =
        some (.VStr item) ∧
      List.lookup "recipe" (generate_event "s" 30 (constRNG (9 / 10))).1 =
        some (.VStr item) := by
  have hc : (pyChoice (EVENT_TYPES ++ ["on_player_crafted_item"])
      (constRNG (9 / 10))).1 = "on_player_crafted_item" := by
    norm_num [pyChoice, RNG.next, constRNG, EVENT_TYPES]
  have hrec : (generate_event "s" 30 (constRNG (9 / 10))).1 =
      eventPayload "s" 30 "on_player_crafted_item" ++
        [("item_name", Value.VStr (pyChoice RECIPES
            (pyChoice (EVENT_TYPES ++ ["on_player_crafted_item"])
              (constRNG (9 / 10))).2).1),
         ("count", Value.VInt (pyRandint 1 5 (pyChoice RECIPES
            (pyChoice (EVENT_TYPES ++ ["on_player_crafted_item"])
              (constRNG (9 / 10))).2).2).1),
         ("recipe", Value.VStr (pyChoice RECIPES
            (pyChoice (EVENT_TYPES ++ ["on_player_crafted_item"])
              (constRNG (9 / 10))).2).1)] := by
    rw [generate_event_eq, hc]
    rfl
  have hen : List.lookup "event_name"
      (generate_event "s" 30 (constRNG (9 / 10))).1 =
      some (.VStr "on_player_crafted_item") := by
    rw [hrec]
    rfl
  exact ⟨hen, C10_recipe_equals_item_name "s" 30 (constRNG (9 / 10)) hen⟩

/-- C9: when creating the named pipe fails, the failure is reported
(the "Failed to create pipe" line is printed) but is non-fatal: the
program still attempts to open the selected path for writing and, when
that open succeeds, enters the emission loop (writes the init record). -/
theorem C9_mkfifo_failure_nonfatal :
    ∀ (w : SysWorld) (path : String) (t0 : ℕ) (g : RNG) (e : String),
      w.pipeExists = false → w.mkfifoError = some e →
      SysAction.printLine ("Failed to create pipe: " ++ e) ∈
        mainStartup w path t0 g ∧
      SysAction.openWrite path ∈ mainStartup w path t0 g ∧
      (w.openError = none →
        SysAction.writeLine (dumps (generate_session_init (mkSessionId t0 g).1)) ∈
          mainStartup w path t0 g) := by
  intro w path t0 g e hpipe herr
  have hmain : mainStartup w path t0 g =
      [SysAction.printLine
         ("Starting Mock Generator... Session: " ++ (mkSessionId t0 g).1),
       SysAction.printLine ("Writing to: " ++ path)]
      ++ ensure_pipe w path
      ++ [SysAction.openWrite path]
      ++ match w.openError with
         | none => [SysAction.writeLine
                      (dumps (generate_session_init (mkSessionId t0 g).1)),
                    SysAction.printLine "[Init] Session Initialized"]
         | some e2 => [SysAction.printLine ("Error: " ++ e2)] := by
    rcases hsid : mkSessionId t0 g with ⟨sid, g1⟩
    simp [mainStartup, hsid]
  have hpipeList : ensure_pipe w path =
      [SysAction.mkfifoCall path,
       SysAction.printLine ("Failed to create pipe: " ++ e)] := by
    simp [ensure_pipe, hpipe, herr]
  refine ⟨?_, ?_, ?_⟩
  · rw [hmain, hpipeList]
    simp
  · rw [hmain]
    simp
  · intro hopen
    rw [hmain, hopen]
    simp

/-- Witness for C9: a concrete world where the pipe does not exist,
`os.mkfifo` raises, and the open succeeds: the failure is printed, the
open is attempted, and the init record is written. -/
theorem C9_witness :
    (SysWorld.mk false (some "Operation not permitted") none).pipeExists = false ∧
    (SysWorld.mk false (some "Operation not permitted") none).mkfifoError =
      some "Operation not permitted" ∧
    SysAction.printLine ("Failed to create pipe: " ++ "Operation not permitted") ∈
      mainStartup (SysWorld.mk false (some "Operation not permitted") none)
        "/tmp/events.pipe" 1000 (constRNG 0) ∧
    SysAction.openWrite "/tmp/events.pipe" ∈
      mainStartup (SysWorld.mk false (some "Operation not permitted") none)
        "/tmp/events.pipe" 1000 (constRNG 0) ∧
    SysAction.writeLine
        (dumps (generate_session_init (mkSessionId 1000 (constRNG 0)).1)) ∈
      mainStartup (SysWorld.mk false (some "Operation not permitted") none)
        "/tmp/events.pipe" 1000 (constRNG 0) := by
  have h := C9_mkfifo_failure_nonfatal
    (SysWorld.mk false (some "Operation not permitted") none)
    "/tmp/events.pipe" 1000 (constRNG 0) "Operation not permitted" rfl rfl
  exact ⟨rfl, rfl, h.1, h.2.1, h.2.2 rfl⟩

/-- Rounding a non-negative rational to `n` decimals stays non-negative. -/
theorem roundTo_nonneg (n : ℕ) (x : ℚ) (h : 0 ≤ x) : 0 ≤ roundTo n x := by
  unfold roundTo
  apply div_nonneg _ (by positivity)
  have h10 : (0 : ℚ) ≤ x * 10 ^ n := by positivity
  have hr : (0 : ℤ) ≤ round (x * 10 ^ n) := by
    rw [round_eq]
    apply Int.le_floor.mpr
    push_cast
    linarith
  exact_mod_cast hr

/-- Rounding to `n` decimals is idempotent. -/
theorem roundTo_idem (n : ℕ) (x : ℚ) : roundTo n (roundTo n x) = roundTo n x := by
  unfold roundTo
  rw [div_mul_cancel₀ _ (by positivity : ((10 : ℚ) ^ n) ≠ 0), round_intCast]

/-- A value is a well-formed quantity: a rational that is non-negative
and a fixed point of 5-decimal rounding. -/
def GoodQuant (v : Value) : Prop :=
  ∃ q : ℚ, v = .VRat q ∧ 0 ≤ q ∧ roundTo 5 q = q

/-- `format_number` of a non-negative input is a good quantity. -/
theorem goodQuant_format (v : ℚ) (hv : 0 ≤ v) :
    GoodQuant (.VRat (format_number v)) :=
  ⟨format_number v, rfl, roundTo_nonneg 5 v hv, roundTo_idem 5 v⟩

/-- `itemStep` does not change the underlying draw stream. -/
theorem itemStep_f (s : GS) (x : String) : (itemStep s x).g.f = s.g.f := by
  unfold itemStep
  simp only [RNG.next, pyUniform]
  split_ifs <;> rfl

/-- `fluidStep` does not change the underlying draw stream. -/
theorem fluidStep_f (s : GS) (x : String) : (fluidStep s x).g.f = s.g.f := by
  unfold fluidStep
  simp only [RNG.next, pyUniform]
  split_ifs <;> rfl

/-- One `itemStep` preserves well-formedness of all stored quantities. -/
theorem itemStep_good (s : GS) (x : String)
    (hf : ∀ n, 0 ≤ s.g.f n ∧ s.g.f n < 1)
    (hpp : ∀ kv ∈ s.pp, GoodQuant kv.2) (hmc : ∀ kv ∈ s.mc, GoodQuant kv.2) :
    (∀ kv ∈ (itemStep s x).pp, GoodQuant kv.2) ∧
    (∀ kv ∈ (itemStep s x).mc, GoodQuant kv.2) := by
  have hq : ∀ i : ℕ, GoodQuant (.VRat (format_number (0 + (200 - 0) * s.g.f i))) := by
    intro i
    apply goodQuant_format
    have := (hf i).1
    linarith
  unfold itemStep
  simp only [RNG.next, pyUniform]
  split_ifs <;>
    refine ⟨fun kv hkv => ?_, fun kv hkv => ?_⟩ <;>
    simp only [List.mem_append, List.mem_singleton] at hkv <;>
    first
      | (rcases hkv with hkv | hkv
         · first | exact hpp kv hkv | exact hmc kv hkv
         · subst hkv; exact hq _)
      | exact hpp kv hkv
      | exact hmc kv hkv

/-- One `fluidStep` preserves well-formedness of all stored quantities. -/
theorem fluidStep_good (s : GS) (x : String)
    (hf : ∀ n, 0 ≤ s.g.f n ∧ s.g.f n < 1)
    (hpp : ∀ kv ∈ s.pp, GoodQuant kv.2) (hmc : ∀ kv ∈ s.mc, GoodQuant kv.2) :
    (∀ kv ∈ (fluidStep s x).pp, GoodQuant kv.2) ∧
    (∀ kv ∈ (fluidStep s x).mc, GoodQuant kv.2) := by
  have hq : ∀ i : ℕ, GoodQuant (.VRat (format_number (0 + (500 - 0) * s.g.f i))) := by
    intro i
    apply goodQuant_format
    have := (hf i).1
    linarith
  unfold fluidStep
  simp only [RNG.next, pyUniform]
  split_ifs <;>
    refine ⟨fun kv hkv => ?_, fun kv hkv => ?_⟩ <;>
    simp only [List.mem_append, List.mem_singleton] at hkv <;>
    first
      | (rcases hkv with hkv | hkv
         · exact hpp kv hkv
         · subst hkv; exact hq _)
      | exact hpp kv hkv
      | exact hmc kv hkv

/-- Folding `itemStep` preserves quantity well-formedness and the
draw stream. -/
theorem foldl_itemStep_good (l : List String) :
    ∀ s : GS, (∀ n, 0 ≤ s.g.f n ∧ s.g.f n < 1) →
      (∀ kv ∈ s.pp, GoodQuant kv.2) → (∀ kv ∈ s.mc, GoodQuant kv.2) →
      (∀ kv ∈ (l.foldl itemStep s).pp, GoodQuant kv.2) ∧
      (∀ kv ∈ (l.foldl itemStep s).mc, GoodQuant kv.2) ∧
      (l.foldl itemStep s).g.f = s.g.f := by
  induction l with
  | nil => exact fun s _ hpp hmc => ⟨hpp, hmc, rfl⟩
  | cons a t ih =>
    intro s hf hpp hmc
    obtain ⟨hpp1, hmc1⟩ := itemStep_good s a hf hpp hmc
    have hf1 : ∀ n, 0 ≤ (itemStep s a).g.f n ∧ (itemStep s a).g.f n < 1 := by
      rw [itemStep_f]; exact hf
    obtain ⟨h1, h2, h3⟩ := ih (itemStep s a) hf1 hpp1 hmc1
    exact ⟨h1, h2, by rw [List.foldl_cons] at *; rw [h3, itemStep_f]⟩

/-- Folding `fluidStep` preserves quantity well-formedness and the
draw stream. -/
theorem foldl_fluidStep_good (l : List String) :
    ∀ s : GS, (∀ n, 0 ≤ s.g.f n ∧ s.g.f n < 1) →
      (∀ kv ∈ s.pp, GoodQuant kv.2) → (∀ kv ∈ s.mc, GoodQuant kv.2) →
      (∀ kv ∈ (l.foldl fluidStep s).pp, GoodQuant kv.2) ∧
      (∀ kv ∈ (l.foldl fluidStep s).mc, GoodQuant kv.2) ∧
      (l.foldl fluidStep s).g.f = s.g.f := by
  induction l with
  | nil => exact fun s _ hpp hmc => ⟨hpp, hmc, rfl⟩
  | cons a t ih =>
    intro s hf hpp hmc
    obtain ⟨hpp1, hmc1⟩ := fluidStep_good s a hf hpp hmc
    have hf1 : ∀ n, 0 ≤ (fluidStep s a).g.f n ∧ (fluidStep s a).g.f n < 1 := by
      rw [fluidStep_f]; exact hf
    obtain ⟨h1, h2, h3⟩ := ih (fluidStep s a) hf1 hpp1 hmc1
    exact ⟨h1, h2, by rw [List.foldl_cons] at *; rw [h3, fluidStep_f]⟩

/-- The `products_production` dict of a stats record is the loops' `pp`. -/
theorem status_ppOf (sid : String) (tick : ℕ) (g : RNG) :
    ppOf (generate_status sid tick g).1 =
      (FLUIDS.foldl fluidStep (ITEMS.foldl itemStep ⟨[], [], g⟩)).pp := rfl

/-- The `materials_consumption` dict of a stats record is the loops' `mc`. -/
theorem status_mcOf (sid : String) (tick : ℕ) (g : RNG) :
    mcOf (generate_status sid tick g).1 =
      (FLUIDS.foldl fluidStep (ITEMS.foldl itemStep ⟨[], [], g⟩)).mc := rfl

/-- C8: for every generated stats record from a valid random source,
every quantity stored in `products_production` or
`materials_consumption` is non-negative and is a fixed point of
rounding to 5 decimal places. -/
theorem C8_quantities_rounded_nonneg :
    ∀ (sid : String) (tick : ℕ) (g : RNG), validRNG g →
      ∀ kv ∈ ppOf (generate_status sid tick g).1 ++
              mcOf (generate_status sid tick g).1,
        ∃ q : ℚ, kv.2 = .VRat q ∧ 0 ≤ q ∧ roundTo 5 q = q := by
  intro sid tick g hg kv hkv
  rw [status_ppOf, status_mcOf] at hkv
  obtain ⟨hpp1, hmc1, hf1⟩ :=
    foldl_itemStep_good ITEMS ⟨[], [], g⟩ hg (by simp) (by simp)
  have hf2 : ∀ n, 0 ≤ (ITEMS.foldl itemStep ⟨[], [], g⟩).g.f n ∧
      (ITEMS.foldl itemStep ⟨[], [], g⟩).g.f n < 1 := by
    rw [hf1]; exact hg
  obtain ⟨hpp2, hmc2, _⟩ :=
    foldl_fluidStep_good FLUIDS (ITEMS.foldl itemStep ⟨[], [], g⟩) hf2 hpp1 hmc1
  rcases List.mem_append.mp hkv with h | h
  · exact hpp2 kv h
  · exact hmc2 kv h

/-- Witness for C8: with the constant-1/2 source, `iron-plate` is
included in production with quantity `format_number 100`, which is
non-negative and rounding-stable. -/
theorem C8_witness :
    validRNG (constRNG (1 / 2)) ∧
    (∃ q : ℚ,
      (("iron-plate", Value.VRat (format_number (0 + (200 - 0) * (1 / 2)))) :
        String × Value).2 = .VRat q ∧ 0 ≤ q ∧ roundTo 5 q = q) := by
  have hval : validRNG (constRNG (1 / 2)) := by
    intro n
    constructor <;> norm_num [constRNG]
  have hmem : ("iron-plate", Value.VRat (format_number (0 + (200 - 0) * (1 / 2)))) ∈
      ppOf (generate_status "s" 120 (constRNG (1 / 2))).1 ++
        mcOf (generate_status "s" 120 (constRNG (1 / 2))).1 := by
    rw [status_ppOf, status_mcOf]
    norm_num [ITEMS, FLUIDS, itemStep, fluidStep, RNG.next, pyUniform, constRNG]
  exact ⟨hval, C8_quantities_rounded_nonneg "s" 120 (constRNG (1 / 2)) hval _ hmem⟩

/-- Inclusion of an item in `products_production` is decided by the
fresh draw at the current cursor exceeding 0.3. -/
theorem itemStep_pp_mem (pp mc : Dict) (g : RNG) (x : String)
    (h : x ∉ dictKeys pp) :
    x ∈ dictKeys (itemStep ⟨pp, mc, g⟩ x).pp ↔ (3 / 10 : ℚ) < g.f g.k := by
  simp only [dictKeys] at h ⊢
  unfold itemStep
  simp only [RNG.next, pyUniform]
  split_ifs with h1 h2 h2 <;> simp [h, h1]

/-- Inclusion of an item in `materials_consumption` is decided by a
fresh draw at a strictly later cursor position exceeding 0.3. -/
theorem itemStep_mc_mem (pp mc : Dict) (g : RNG) (x : String)
    (h : x ∉ dictKeys mc) :
    (x ∈ dictKeys (itemStep ⟨pp, mc, g⟩ x).mc ↔
      (3 / 10 : ℚ) < g.f (g.k + if (3 / 10 : ℚ) < g.f g.k then 2 else 1)) ∧
    g.k < g.k + if (3 / 10 : ℚ) < g.f g.k then 2 else 1 := by
  simp only [dictKeys] at h ⊢
  unfold itemStep
  simp only [RNG.next, pyUniform]
  have e : g.k + 1 + 1 = g.k + 2 := by omega
  split_ifs with h1 h2 h2
  · rw [e] at h2
    exact ⟨by simp [h, h2], by omega⟩
  · rw [e] at h2
    exact ⟨by simp [h, h2], by omega⟩
  · exact ⟨by simp [h, h2], by omega⟩
  · exact ⟨by simp [h, h2], by omega⟩

/-- `fluidStep` never touches `materials_consumption`. -/
theorem fluidStep_mc (s : GS) (x : String) : (fluidStep s x).mc = s.mc := by
  unfold fluidStep
  simp only [RNG.next, pyUniform]
  split_ifs <;> rfl

/-- Inclusion of a fluid in `products_production` is decided by the
fresh draw at the current cursor exceeding 0.5. -/
theorem fluidStep_pp_mem (pp mc : Dict) (g : RNG) (x : String)
    (h : x ∉ dictKeys pp) :
    x ∈ dictKeys (fluidStep ⟨pp, mc, g⟩ x).pp ↔ (1 / 2 : ℚ) < g.f g.k := by
  simp only [dictKeys] at h ⊢
  unfold fluidStep
  simp only [RNG.next, pyUniform]
  split_ifs with h1 <;> simp [h] <;> linarith

/-- Keys ever added to `mc` by the item loop come from the item list. -/
theorem foldl_itemStep_mc_keys (l : List String) :
    ∀ (s : GS) (x : String), x ∈ dictKeys (l.foldl itemStep s).mc →
      x ∈ dictKeys s.mc ∨ x ∈ l := by
  induction l with
  | nil => intro s x hx; exact Or.inl hx
  | cons a t ih =>
    intro s x hx
    rw [List.foldl_cons] at hx
    rcases ih (itemStep s a) x hx with hx | hx
    · have hstep : dictKeys (itemStep s a).mc = dictKeys s.mc ∨
          dictKeys (itemStep s a).mc = dictKeys s.mc ++ [a] := by
        unfold itemStep
        simp only [RNG.next, pyUniform]
        split_ifs <;> simp [dictKeys]
      rcases hstep with hstep | hstep
      · rw [hstep] at hx
        exact Or.inl hx
      · rw [hstep] at hx
        rcases List.mem_append.mp hx with hx | hx
        · exact Or.inl hx
        · simp only [List.mem_singleton] at hx
          subst hx
          exact Or.inr (by simp)
    · exact Or.inr (by simp [hx])

/-- The fluid loop leaves `mc` unchanged. -/
theorem foldl_fluidStep_mc (l : List String) :
    ∀ s : GS, (l.foldl fluidStep s).mc = s.mc := by
  induction l with
  | nil => intro s; rfl
  | cons a t ih =>
    intro s
    rw [List.foldl_cons, ih, fluidStep_mc]

/-- Under the uniform law of `random.random()` on `[0,1)`, the event
"the draw exceeds 0.3" has probability 7/10. -/
theorem measure_gt_threshold_0_3 :
    MeasureTheory.volume {u : ℝ | u ∈ Set.Ico (0 : ℝ) 1 ∧ (3 / 10 : ℝ) < u} =
      ENNReal.ofReal (7 / 10) := by
  have hset : {u : ℝ | u ∈ Set.Ico (0 : ℝ) 1 ∧ (3 / 10 : ℝ) < u} =
      Set.Ioo (3 / 10 : ℝ) 1 := by
    ext u
    simp only [Set.mem_setOf_eq, Set.mem_Ico, Set.mem_Ioo]
    constructor
    · rintro ⟨⟨h0, h1⟩, h2⟩
      exact ⟨h2, h1⟩
    · rintro ⟨h2, h1⟩
      exact ⟨⟨by linarith, h1⟩, h2⟩
  rw [hset, Real.volume_Ioo]
  norm_num

/-- Under the uniform law of `random.random()` on `[0,1)`, the event
"the draw exceeds 0.5" has probability 1/2. -/
theorem measure_gt_threshold_0_5 :
    MeasureTheory.volume {u : ℝ | u ∈ Set.Ico (0 : ℝ) 1 ∧ (1 / 2 : ℝ) < u} =
      ENNReal.ofReal (1 / 2) := by
  have hset : {u : ℝ | u ∈ Set.Ico (0 : ℝ) 1 ∧ (1 / 2 : ℝ) < u} =
      Set.Ioo (1 / 2 : ℝ) 1 := by
    ext u
    simp only [Set.mem_setOf_eq, Set.mem_Ico, Set.mem_Ioo]
    constructor
    · rintro ⟨⟨h0, h1⟩, h2⟩
      exact ⟨h2, h1⟩
    · rintro ⟨h2, h1⟩
      exact ⟨⟨by linarith, h1⟩, h2⟩
  rw [hset, Real.volume_Ioo]
  norm_num

/-- C7: per tracked item, inclusion in `products_production` is decided
by a fresh uniform draw exceeding 0.3 (an event of probability 7/10)
and inclusion in `materials_consumption` by a distinct, strictly later
draw exceeding 0.3 (again 7/10, independent for an i.i.d. source);
per tracked fluid, inclusion in `products_production` is decided by a
fresh draw exceeding 0.5 (probability 1/2) and fluids are never added
to `materials_consumption` (in no generated stats record does a fluid
key appear there). -/
theorem C7_inclusion_probabilities :
    (∀ (pp mc : Dict) (g : RNG) (x : String), x ∉ dictKeys pp →
        (x ∈ dictKeys (itemStep ⟨pp, mc, g⟩ x).pp ↔ (3 / 10 : ℚ) < g.f g.k)) ∧
    (∀ (pp mc : Dict) (g : RNG) (x : String), x ∉ dictKeys mc →
        ((x ∈ dictKeys (itemStep ⟨pp, mc, g⟩ x).mc ↔
            (3 / 10 : ℚ) < g.f
              (g.k + if (3 / 10 : ℚ) < g.f g.k then 2 else 1)) ∧
         g.k < g.k + if (3 / 10 : ℚ) < g.f g.k then 2 else 1)) ∧
    (∀ (s : GS) (x : String), (fluidStep s x).mc = s.mc) ∧
    (∀ (pp mc : Dict) (g : RNG) (x : String), x ∉ dictKeys pp →
        (x ∈ dictKeys (fluidStep ⟨pp, mc, g⟩ x).pp ↔ (1 / 2 : ℚ) < g.f g.k)) ∧
    (∀ (sid : String) (tick : ℕ) (g : RNG) (fl : String), fl ∈ FLUIDS →
        fl ∉ dictKeys (mcOf (generate_status sid tick g).1)) ∧
    MeasureTheory.volume {u : ℝ | u ∈ Set.Ico (0 : ℝ) 1 ∧ (3 / 10 : ℝ) < u} =
      ENNReal.ofReal (7 / 10) ∧
    MeasureTheory.volume {u : ℝ | u ∈ Set.Ico (0 : ℝ) 1 ∧ (1 / 2 : ℝ) < u} =
      ENNReal.ofReal (1 / 2) := by
  refine ⟨itemStep_pp_mem, itemStep_mc_mem, fluidStep_mc, fluidStep_pp_mem,
    ?_, measure_gt_threshold_0_3, measure_gt_threshold_0_5⟩
  intro sid tick g fl hfl hmem
  rw [status_mcOf, foldl_fluidStep_mc] at hmem
  have := foldl_itemStep_mc_keys ITEMS ⟨[], [], g⟩ fl hmem
  rcases this with h | h
  · simp [dictKeys] at h
  · have : fl ∉ ITEMS := by
      revert hfl
      simp only [FLUIDS, ITEMS, List.mem_cons, List.not_mem_nil, or_false]
      rintro (rfl | rfl | rfl) <;> decide
    exact this h

/-- Witness for C7: with the constant-1/2 source, `coal` is included in
production precisely because the fresh draw 1/2 exceeds 0.3. -/
theorem C7_witness :
    ("coal" ∉ dictKeys ([] : Dict)) ∧
    ("coal" ∈ dictKeys (itemStep ⟨[], [], constRNG (1 / 2)⟩ "coal").pp ↔
      (3 / 10 : ℚ) < (constRNG (1 / 2)).f (constRNG (1 / 2)).k) :=
  ⟨by simp [dictKeys],
   C7_inclusion_probabilities.1 [] [] (constRNG (1 / 2)) "coal"
     (by simp [dictKeys])⟩
